import Mathlib

/-!
Verification of the neighborly-senior-helper repository.

The embedding models the two source files:
* `src/server/index.js` — keyword retrieval, deterministic fallback paragraph,
  prompt building, the generator retry wrapper, and the POST /api/ask handler;
* `src/scripts/csv-to-json.mjs` — the ingestion sanitizer/filter.

JavaScript string primitives (`toLowerCase`, `split`, `includes`, `trim`,
`join`) are modelled by structural recursion over `List Char` so that all
definitions are executable and decidable.
-/

namespace Helper

/-! ### JavaScript string primitives -/

/-- `String.prototype.toLowerCase` (ASCII-faithful). -/
def strLower (s : String) : String := ⟨s.data.map Char.toLower⟩

/-- Emptiness of a string, i.e. JS falsiness of a string value. -/
def strEmpty (s : String) : Bool := s.data.isEmpty

/-- `String.prototype.split` at every character satisfying `p`
(consecutive separators yield empty pieces; callers filter them out,
matching `split(/\s+/)` composed with `filter(Boolean)`). -/
def splitP (p : Char → Bool) : List Char → List (List Char)
  | [] => [[]]
  | c :: t =>
    if p c then [] :: splitP p t
    else
      match splitP p t with
      | [] => [[c]]
      | h :: tl => (c :: h) :: tl

/-- Does `t` occur at the start of `s`? -/
def startsWith : List Char → List Char → Bool
  | _, [] => true
  | [], _ :: _ => false
  | c :: s, d :: t => c = d && startsWith s t

/-- `String.prototype.includes`: does the needle `t` occur somewhere in `s`? -/
def containsSub : List Char → List Char → Bool
  | [], t => startsWith [] t
  | c :: s, t => startsWith (c :: s) t || containsSub s t

/-- String-level `includes`. -/
def strIncl (s t : String) : Bool := containsSub s.data t.data

/-- `String.prototype.trim` on the character list: drop whitespace from
both ends. -/
def trimChars (l : List Char) : List Char :=
  ((l.dropWhile Char.isWhitespace).reverse.dropWhile Char.isWhitespace).reverse

/-- `String.prototype.trim`. -/
def strTrim (s : String) : String := ⟨trimChars s.data⟩

/-- `Array.prototype.join(sep)`. -/
def joinSep (sep : String) : List String → String
  | [] => ""
  | [p] => p
  | p :: q :: rest => p ++ sep ++ joinSep sep (q :: rest)

/-! ### Data model -/

/-- One directory entry, as produced by the ingestion script
(`src/scripts/csv-to-json.mjs`) and loaded by the server. -/
structure ServiceRecord where
  town : String
  category : String
  name : String
  address : String
  phone : String
  hours : String
  area : List String
  url : String
  notes : String
deriving Repr, DecidableEq

/-- A record paired with its retrieval score (`{ item, score }`). -/
structure Scored where
  item : ServiceRecord
  score : Nat
deriving Repr, DecidableEq

/-! ### Keyword retrieval (`keywordRetrieve`, src/server/index.js:66-85) -/

/-- `(question || '').toLowerCase().split(/\s+/).filter(Boolean)`. -/
def tokenize (question : String) : List String :=
  ((splitP Char.isWhitespace (strLower question).data).map String.mk).filter
    (fun t => !strEmpty t)

/-- `!tp || (d.town || '').toLowerCase().includes(tp)` where `tp` is the
already-lowercased town preference. -/
def townOk (tp : String) (d : ServiceRecord) : Bool :=
  strEmpty tp || strIncl (strLower d.town) tp

/-- `[d.town, d.category, d.name, d.address, d.notes].filter(Boolean).join(' ').toLowerCase()`. -/
def hayOf (d : ServiceRecord) : String :=
  strLower (joinSep " "
    (([d.town, d.category, d.name, d.address, d.notes]).filter (fun f => !strEmpty f)))

/-- `let score = 0; for (const t of tokens) if (hay.includes(t)) score++`. -/
def scoreOf (tokens : List String) (d : ServiceRecord) : Nat :=
  tokens.countP (fun t => strIncl (hayOf d) t)

/-- The `scored` accumulation loop of `keywordRetrieve`: skip records whose
town does not pass the filter, keep those with a positive score. -/
def scoredOf (tokens : List String) (tp : String) : List ServiceRecord → List Scored
  | [] => []
  | d :: rest =>
    if townOk tp d then
      if scoreOf tokens d > 0 then ⟨d, scoreOf tokens d⟩ :: scoredOf tokens tp rest
      else scoredOf tokens tp rest
    else scoredOf tokens tp rest

/-- Stable insertion for a descending sort by `sc`: the new element goes in
front of the first element whose key is `≤` its own, so earlier elements win
ties — the behaviour of the (stable) JS `sort((a,b)=>b.score-a.score)`. -/
def insertDescBy (sc : α → Nat) (a : α) : List α → List α
  | [] => [a]
  | b :: l => if sc b ≤ sc a then a :: b :: l else b :: insertDescBy sc a l

/-- Stable descending sort by `sc`. -/
def sortDescBy (sc : α → Nat) : List α → List α
  | [] => []
  | a :: l => insertDescBy sc a (sortDescBy sc l)

/-- `keywordRetrieve(question, townPref)` (src/server/index.js:66-85). -/
def keywordRetrieve (data : List ServiceRecord) (question townPref : String) :
    List Scored :=
  let tokens := tokenize question
  let tp := strLower townPref
  let scored := scoredOf tokens tp data
  if scored.isEmpty then
    ((data.filter (fun d => townOk tp d)).take 2).map (fun it => ⟨it, 1⟩)
  else
    (sortDescBy Scored.score scored).take 2

/-! ### Deterministic paragraph fallback (`writeFallbackParagraph`,
src/server/index.js:88-101) -/

def writeFallbackParagraph (scored : List Scored) (_question townPref : String) :
    String :=
  match scored with
  | [] =>
    "I couldn’t find a match" ++
      (if strEmpty townPref then "" else " in " ++ townPref) ++
      ". Please try a different town or category, or use the links in the sources below."
  | s :: _ =>
    let it := s.item
    let parts : List String :=
      [it.name ++ " serves " ++ it.town ++ "."] ++
      (if strEmpty it.notes then [] else [it.notes]) ++
      (if strEmpty it.hours then [] else ["Hours: " ++ it.hours ++ "."]) ++
      (if strEmpty it.address then [] else ["Address: " ++ it.address ++ "."]) ++
      ["Phone: " ++ (if strEmpty it.phone then "N/A" else it.phone) ++ "."] ++
      (if strEmpty it.url then [] else ["More info: " ++ it.url])
    joinSep " " parts

/-! ### Prompt builder (`buildPrompt`, src/server/index.js:104-131) -/

/-- The trimmed guardrail preamble. -/
def guardrails : String :=
  "You are a warm, calm assistant for seniors and caregivers.\n" ++
  "Be very kind, simple, and concise — reply with 2–4 short sentences in plain language.\n" ++
  "Only use phone numbers, addresses, hours, and links that appear in the \"Local Directory\" below.\n" ++
  "If a detail is missing, say you don't have it and suggest visiting the provided link.\n" ++
  "Do not ask to open websites. If the user states an emergency, advise calling 911."

/-- One context line per scored record. -/
def contextLine (s : Scored) : String :=
  let it := s.item
  "- [" ++ it.category ++ "] " ++
    (if strEmpty it.name then "(name not provided)" else it.name) ++
    " — Phone: " ++ (if strEmpty it.phone then "N/A" else it.phone) ++ "; " ++
    (if strEmpty it.address then "" else "Address: " ++ it.address ++ "; ") ++
    "Hours: " ++ (if strEmpty it.hours then "N/A" else it.hours) ++ "; Area: " ++
    joinSep ", " it.area ++ "; " ++
    (if strEmpty it.url then "" else "Link: " ++ it.url ++ "; ") ++
    (if strEmpty it.notes then "" else "Notes: " ++ it.notes)

def buildPrompt (question townPref : String) (scored : List Scored) : String :=
  let contextLines := joinSep "\n" (scored.map contextLine)
  strTrim
    ("\n" ++ guardrails ++ "\n\nUser question: \"\"\"" ++ question ++ "\"\"\"\n" ++
      (if strEmpty townPref then "" else "Preferred town: " ++ townPref) ++
      "\n\nLocal Directory:\n" ++
      (if strEmpty contextLines then "(no matches)" else contextLines) ++
      "\nWrite a short **paragraph** (not a list). Mention up to 2 relevant services. Avoid repeating the exact same phrasing each time.\n")

/-! ### Generator with model auto-retry (`generateWithRetry`,
src/server/index.js:43-63) -/

/-- An error thrown by the completion call: `statusText`/`message`, empty
string standing for an absent (falsy) field. -/
structure GenError where
  statusText : String
  message : String
deriving Repr, DecidableEq

/-- `err?.statusText || err?.message || ''`. -/
def errMsg (e : GenError) : String :=
  if strEmpty e.statusText then e.message else e.statusText

/-- Matches `not\s*found` at the head of the character list, whitespace
already allowed between the two words. -/
def foundAfterWs : List Char → Bool
  | 'f' :: 'o' :: 'u' :: 'n' :: 'd' :: _ => true
  | c :: rest => c.isWhitespace && foundAfterWs rest
  | [] => false

def notFoundAt : List Char → Bool
  | 'n' :: 'o' :: 't' :: rest => foundAfterWs rest
  | _ => false

def hasNotFound : List Char → Bool
  | [] => false
  | c :: rest => notFoundAt (c :: rest) || hasNotFound rest

/-- `/not\s*found|404/i.test(msg)`. -/
def isNotFound (msg : String) : Bool :=
  let m := (strLower msg).data
  hasNotFound m || containsSub m ['4', '0', '4']

/-- The default model name hardcoded in the server. -/
def defaultModel : String := "gemini-2.0-flash"

/-- The process-wide generator state: the client (`chatModel`, carrying the
model name it was built with, `none` when uninitialized) and
`currentModelName`. -/
structure GenState where
  chatModel : Option String
  currentModelName : String
deriving Repr, DecidableEq

/-- `initModel(name)`. -/
def initModel (name : String) (_st : GenState) : GenState :=
  { chatModel := some name, currentModelName := name }

/-- `generateWithRetry(prompt)`, with the completion service abstracted as
`call : modelName → prompt → Except GenError String`. -/
def generateWithRetry (call : String → String → Except GenError String)
    (st : GenState) (prompt : String) : Except GenError String × GenState :=
  match st.chatModel with
  | none => (.error ⟨"", "Gemini model not initialized"⟩, st)
  | some m =>
    match call m prompt with
    | .ok text => (.ok text, st)
    | .error err =>
      if isNotFound (errMsg err) && st.currentModelName != defaultModel then
        let st' := initModel defaultModel st
        (call defaultModel prompt, st')
      else
        (.error err, st)

/-! ### POST /api/ask handler (src/server/index.js:138-162) -/

/-- A JavaScript value as it may arrive in the request body. -/
inductive JSVal where
  | undef
  | nullv
  | bool (b : Bool)
  | num (n : Int)
  | str (s : String)
  | obj
deriving Repr, DecidableEq

/-- JavaScript truthiness. -/
def jsTruthy : JSVal → Bool
  | .undef => false
  | .nullv => false
  | .bool b => b
  | .num n => n != 0
  | .str s => !strEmpty s
  | .obj => true

/-- The HTTP responses the handler can produce. -/
inductive ApiResponse where
  | ok (answer : String) (sources : List ServiceRecord)
  | badRequest (error : String)
  | unavailable (error : String)
  | serverError (error : String)
deriving Repr, DecidableEq

/-- The `/api/ask` handler. `hasModel` is the truthiness of `chatModel`;
`gen` is the outcome of `generateWithRetry` on a given prompt. Calling
`.trim()` on a truthy non-string throws, landing in the catch-all
`500 Server error` branch. -/
def handleAsk (data : List ServiceRecord) (hasModel : Bool)
    (gen : String → Except GenError String)
    (question : JSVal) (townPref : String) : ApiResponse :=
  if !jsTruthy question then .badRequest "Missing question"
  else
    match question with
    | .str q =>
      if strEmpty (strTrim q) then .badRequest "Missing question"
      else if data.isEmpty then .unavailable "No data loaded. Run the ingestion script."
      else
        let scored := keywordRetrieve data q townPref
        let prompt := buildPrompt q townPref scored
        let answer :=
          if hasModel then
            match gen prompt with
            | .ok t => if strEmpty t then writeFallbackParagraph scored q townPref else t
            | .error _ => writeFallbackParagraph scored q townPref
          else writeFallbackParagraph scored q townPref
        .ok answer (scored.map Scored.item)
    | _ => .serverError "Server error"

/-! ### Ingestion (`src/scripts/csv-to-json.mjs`) -/

/-- One parsed CSV row (missing cells modelled as `""`, matching
`(r.field || '')`). -/
structure CsvRow where
  town : String
  category : String
  name : String
  address : String
  phone : String
  hours : String
  area : String
  url : String
  notes : String
deriving Repr, DecidableEq

/-- `Array.prototype.split(',')` at the string level. -/
def splitCommaStr (s : String) : List String :=
  (splitP (fun c => c == ',') s.data).map String.mk

/-- The per-row sanitizer of the ingestion map. -/
def sanitizeRow (r : CsvRow) : ServiceRecord :=
  { town := strTrim r.town
    category := strTrim r.category
    name := strTrim r.name
    address := strTrim r.address
    phone := strTrim r.phone
    hours := strTrim r.hours
    area := ((splitCommaStr (strTrim r.area)).map strTrim).filter (fun t => !strEmpty t)
    url := strTrim r.url
    notes := strTrim r.notes }

/-- `rows.map(sanitize).filter(x => x.town && x.category && x.url)`. -/
def ingestItems (rows : List CsvRow) : List ServiceRecord :=
  (rows.map sanitizeRow).filter
    (fun x => !strEmpty x.town && !strEmpty x.category && !strEmpty x.url)

/-! ### Indexed views of the retrieval pipeline, used to state stability -/

/-- The scored records of `keywordRetrieve` together with the directory
position of each record, starting the numbering at `n`. -/
def scoredIdxFrom (tokens : List String) (tp : String) :
    Nat → List ServiceRecord → List (Nat × Scored)
  | _, [] => []
  | n, d :: rest =>
    if townOk tp d then
      if scoreOf tokens d > 0 then
        (n, ⟨d, scoreOf tokens d⟩) :: scoredIdxFrom tokens tp (n + 1) rest
      else scoredIdxFrom tokens tp (n + 1) rest
    else scoredIdxFrom tokens tp (n + 1) rest

/-- The town-filtered records together with their directory positions. -/
def townIdxFrom (tp : String) : Nat → List ServiceRecord → List (Nat × ServiceRecord)
  | _, [] => []
  | n, d :: rest =>
    if townOk tp d then (n, d) :: townIdxFrom tp (n + 1) rest
    else townIdxFrom tp (n + 1) rest

/-- Strictly-descending-score-or-(equal-score-and-earlier-directory-position)
order: the order a stable descending sort produces on indexed records. -/
def lexDesc (a b : Nat × Scored) : Prop :=
  b.2.score < a.2.score ∨ (a.2.score = b.2.score ∧ a.1 < b.1)

/-! ### Lemmas about the stable sort -/

theorem mem_insertDescBy {sc : α → Nat} {a x : α} {l : List α} :
    x ∈ insertDescBy sc a l ↔ x = a ∨ x ∈ l := by
  induction l with
  | nil => simp [insertDescBy]
  | cons b t ih =>
    by_cases h : sc b ≤ sc a
    · simp [insertDescBy, h, List.mem_cons]
    · simp [insertDescBy, h, List.mem_cons, ih]
      tauto

theorem length_insertDescBy (sc : α → Nat) (a : α) (l : List α) :
    (insertDescBy sc a l).length = l.length + 1 := by
  induction l with
  | nil => rfl
  | cons b t ih => by_cases h : sc b ≤ sc a <;> simp [insertDescBy, h, ih]

theorem length_sortDescBy (sc : α → Nat) (l : List α) :
    (sortDescBy sc l).length = l.length := by
  induction l with
  | nil => rfl
  | cons a t ih => simp [sortDescBy, length_insertDescBy, ih]

theorem mem_sortDescBy {sc : α → Nat} {x : α} {l : List α} :
    x ∈ sortDescBy sc l ↔ x ∈ l := by
  induction l with
  | nil => simp [sortDescBy]
  | cons a t ih => simp [sortDescBy, mem_insertDescBy, ih, List.mem_cons]

theorem map_insertDescBy (f : α → β) (sc : β → Nat) (a : α) (l : List α) :
    insertDescBy sc (f a) (l.map f) = (insertDescBy (fun x => sc (f x)) a l).map f := by
  induction l with
  | nil => rfl
  | cons b t ih =>
    by_cases h : sc (f b) ≤ sc (f a) <;> simp [insertDescBy, h, ih]

theorem map_sortDescBy (f : α → β) (sc : β → Nat) (l : List α) :
    sortDescBy sc (l.map f) = (sortDescBy (fun x => sc (f x)) l).map f := by
  induction l with
  | nil => rfl
  | cons a t ih => simp [sortDescBy, ih, map_insertDescBy]

theorem lexDesc_of_le {a x : Nat × Scored} (h1 : x.2.score ≤ a.2.score)
    (h2 : a.1 < x.1) : lexDesc a x := by
  rcases Nat.lt_or_ge x.2.score a.2.score with h | h
  · exact Or.inl h
  · exact Or.inr ⟨Nat.le_antisymm h h1, h2⟩

theorem lexDesc_score {a b : Nat × Scored} (h : lexDesc a b) :
    b.2.score ≤ a.2.score := by
  rcases h with h | ⟨h, _⟩
  · exact Nat.le_of_lt h
  · exact Nat.le_of_eq h.symm

theorem pairwise_insert_lexDesc {a : Nat × Scored} {s : List (Nat × Scored)}
    (hs : s.Pairwise lexDesc) (ha : ∀ x ∈ s, a.1 < x.1) :
    (insertDescBy (fun p => p.2.score) a s).Pairwise lexDesc := by
  induction s with
  | nil => simp [insertDescBy]
  | cons b t ih =>
    rcases List.pairwise_cons.mp hs with ⟨hb, ht⟩
    by_cases h : b.2.score ≤ a.2.score
    · simp only [insertDescBy, if_pos h]
      refine List.pairwise_cons.mpr ⟨?_, hs⟩
      intro x hx
      have hsc : x.2.score ≤ a.2.score := by
        rcases List.mem_cons.mp hx with rfl | hx'
        · exact h
        · exact Nat.le_trans (lexDesc_score (hb x hx')) h
      exact lexDesc_of_le hsc (ha x hx)
    · simp only [insertDescBy, if_neg h]
      refine List.pairwise_cons.mpr
        ⟨?_, ih ht (fun x hx => ha x (List.mem_cons_of_mem _ hx))⟩
      intro x hx
      rcases mem_insertDescBy.mp hx with rfl | hx'
      · exact Or.inl (Nat.lt_of_not_le h)
      · exact hb x hx'

theorem pairwise_sort_lexDesc {l : List (Nat × Scored)}
    (h : l.Pairwise (fun p q => p.1 < q.1)) :
    (sortDescBy (fun p => p.2.score) l).Pairwise lexDesc := by
  induction l with
  | nil => simp [sortDescBy]
  | cons a t ih =>
    rcases List.pairwise_cons.mp h with ⟨ha, ht⟩
    exact pairwise_insert_lexDesc (ih ht) (fun x hx => ha x (mem_sortDescBy.mp hx))

/-! ### Lemmas about the scored lists -/

theorem map_snd_scoredIdxFrom (tokens : List String) (tp : String) (n : Nat)
    (data : List ServiceRecord) :
    (scoredIdxFrom tokens tp n data).map Prod.snd = scoredOf tokens tp data := by
  induction data generalizing n with
  | nil => rfl
  | cons d rest ih =>
    by_cases h1 : townOk tp d
    · by_cases h2 : scoreOf tokens d > 0 <;>
        simp [scoredIdxFrom, scoredOf, h1, h2, ih]
    · simp [scoredIdxFrom, scoredOf, h1, ih]

theorem mem_scoredIdxFrom {tokens : List String} {tp : String} {n : Nat}
    {data : List ServiceRecord} {p : Nat × Scored}
    (hp : p ∈ scoredIdxFrom tokens tp n data) :
    n ≤ p.1 ∧ (∃ k, p.1 = n + k ∧ data[k]? = some p.2.item) ∧
      p.2.score = scoreOf tokens p.2.item ∧ 0 < p.2.score ∧
      townOk tp p.2.item = true := by
  induction data generalizing n with
  | nil => simp [scoredIdxFrom] at hp
  | cons d rest ih =>
    by_cases h1 : townOk tp d
    · by_cases h2 : scoreOf tokens d > 0
      · simp only [scoredIdxFrom, if_pos h1, if_pos h2, List.mem_cons] at hp
        rcases hp with rfl | hp'
        · exact ⟨Nat.le_refl _, ⟨0, by simp⟩, rfl, h2, h1⟩
        · obtain ⟨hle, ⟨k, hk, hget⟩, hsc, hpos, htk⟩ := ih hp'
          exact ⟨Nat.le_of_succ_le hle, ⟨k + 1, by omega, by simpa using hget⟩,
            hsc, hpos, htk⟩
      · simp only [scoredIdxFrom, if_pos h1, if_neg h2] at hp
        obtain ⟨hle, ⟨k, hk, hget⟩, hsc, hpos, htk⟩ := ih hp
        exact ⟨Nat.le_of_succ_le hle, ⟨k + 1, by omega, by simpa using hget⟩,
          hsc, hpos, htk⟩
    · simp only [scoredIdxFrom, if_neg h1] at hp
      obtain ⟨hle, ⟨k, hk, hget⟩, hsc, hpos, htk⟩ := ih hp
      exact ⟨Nat.le_of_succ_le hle, ⟨k + 1, by omega, by simpa using hget⟩,
        hsc, hpos, htk⟩

theorem pairwise_fst_scoredIdxFrom (tokens : List String) (tp : String) (n : Nat)
    (data : List ServiceRecord) :
    (scoredIdxFrom tokens tp n data).Pairwise (fun p q => p.1 < q.1) := by
  induction data generalizing n with
  | nil => simp [scoredIdxFrom]
  | cons d rest ih =>
    by_cases h1 : townOk tp d
    · by_cases h2 : scoreOf tokens d > 0
      · simp only [scoredIdxFrom, if_pos h1, if_pos h2]
        refine List.pairwise_cons.mpr ⟨?_, ih (n + 1)⟩
        intro q hq
        have := (mem_scoredIdxFrom hq).1
        omega
      · simp only [scoredIdxFrom, if_pos h1, if_neg h2]
        exact ih (n + 1)
    · simp only [scoredIdxFrom, if_neg h1]
      exact ih (n + 1)

theorem map_snd_townIdxFrom (tp : String) (n : Nat) (data : List ServiceRecord) :
    (townIdxFrom tp n data).map Prod.snd = data.filter (fun d => townOk tp d) := by
  induction data generalizing n with
  | nil => rfl
  | cons d rest ih => by_cases h1 : townOk tp d <;> simp [townIdxFrom, h1, ih]

theorem mem_townIdxFrom {tp : String} {n : Nat} {data : List ServiceRecord}
    {p : Nat × ServiceRecord} (hp : p ∈ townIdxFrom tp n data) :
    n ≤ p.1 ∧ ∃ k, p.1 = n + k ∧ data[k]? = some p.2 := by
  induction data generalizing n with
  | nil => simp [townIdxFrom] at hp
  | cons d rest ih =>
    by_cases h1 : townOk tp d
    · simp only [townIdxFrom, if_pos h1, List.mem_cons] at hp
      rcases hp with rfl | hp'
      · exact ⟨Nat.le_refl _, 0, by simp⟩
      · obtain ⟨hle, k, hk, hget⟩ := ih hp'
        exact ⟨Nat.le_of_succ_le hle, k + 1, by omega, by simpa using hget⟩
    · simp only [townIdxFrom, if_neg h1] at hp
      obtain ⟨hle, k, hk, hget⟩ := ih hp
      exact ⟨Nat.le_of_succ_le hle, k + 1, by omega, by simpa using hget⟩

theorem pairwise_fst_townIdxFrom (tp : String) (n : Nat)
    (data : List ServiceRecord) :
    (townIdxFrom tp n data).Pairwise (fun p q => p.1 < q.1) := by
  induction data generalizing n with
  | nil => simp [townIdxFrom]
  | cons d rest ih =>
    by_cases h1 : townOk tp d
    · simp only [townIdxFrom, if_pos h1]
      refine List.pairwise_cons.mpr ⟨?_, ih (n + 1)⟩
      intro q hq
      have := (mem_townIdxFrom hq).1
      omega
    · simp only [townIdxFrom, if_neg h1]
      exact ih (n + 1)

theorem mem_scoredOf {tokens : List String} {tp : String}
    {data : List ServiceRecord} {s : Scored} (hs : s ∈ scoredOf tokens tp data) :
    s.score = scoreOf tokens s.item ∧ 0 < s.score := by
  induction data with
  | nil => simp [scoredOf] at hs
  | cons d rest ih =>
    by_cases h1 : townOk tp d
    · by_cases h2 : scoreOf tokens d > 0
      · simp only [scoredOf, if_pos h1, if_pos h2, List.mem_cons] at hs
        rcases hs with rfl | hs'
        · exact ⟨rfl, h2⟩
        · exact ih hs'
      · simp only [scoredOf, if_pos h1, if_neg h2] at hs
        exact ih hs
    · simp only [scoredOf, if_neg h1] at hs
      exact ih hs

theorem scoredOf_eq_nil {tokens : List String} {tp : String}
    {data : List ServiceRecord}
    (h : ∀ d ∈ data, townOk tp d = true → scoreOf tokens d = 0) :
    scoredOf tokens tp data = [] := by
  induction data with
  | nil => rfl
  | cons d rest ih =>
    have ih' := ih (fun x hx hX => h x (List.mem_cons_of_mem _ hx) hX)
    by_cases h1 : townOk tp d
    · have h0 : scoreOf tokens d = 0 := h d (List.mem_cons_self ..) h1
      simp [scoredOf, h1, h0, ih']
    · simp [scoredOf, h1, ih']

theorem scoredOf_ne_nil {tokens : List String} {tp : String}
    {data : List ServiceRecord} {d : ServiceRecord} (hd : d ∈ data)
    (ht : townOk tp d = true) (hp : 0 < scoreOf tokens d) :
    scoredOf tokens tp data ≠ [] := by
  induction data with
  | nil => simp at hd
  | cons e rest ih =>
    rcases List.mem_cons.mp hd with rfl | hd'
    · simp [scoredOf, ht, hp]
    · by_cases h1 : townOk tp e
      · by_cases h2 : scoreOf tokens e > 0 <;> simp [scoredOf, h1, h2, ih hd']
      · simp [scoredOf, h1, ih hd']

/-- Master lemma: the result of `keywordRetrieve` is the projection of an
indexed list of length at most 2 that is sorted by descending score with
ties in ascending directory position, every index pointing back at the
directory record it carries. -/
theorem keywordRetrieve_indexed (data : List ServiceRecord) (q tp : String) :
    ∃ l : List (Nat × Scored),
      keywordRetrieve data q tp = l.map Prod.snd ∧
      l.length ≤ 2 ∧ l.Pairwise lexDesc ∧
      ∀ p ∈ l, data[p.1]? = some p.2.item := by
  by_cases h : (scoredOf (tokenize q) (strLower tp) data).isEmpty
  · refine ⟨((townIdxFrom (strLower tp) 0 data).take 2).map
        (fun p => (p.1, ⟨p.2, 1⟩)), ?_, ?_, ?_, ?_⟩
    · simp only [keywordRetrieve]
      rw [if_pos h]
      simp only [← map_snd_townIdxFrom (strLower tp) 0 data, List.map_take,
        List.map_map]
      rfl
    · simp only [List.length_map, List.length_take]
      omega
    · refine List.pairwise_map.mpr ?_
      have hpw := List.Pairwise.sublist (List.take_sublist 2 _)
        (pairwise_fst_townIdxFrom (strLower tp) 0 data)
      exact hpw.imp (fun hab => Or.inr ⟨rfl, hab⟩)
    · intro p hp
      simp only [List.mem_map] at hp
      obtain ⟨x, hx, rfl⟩ := hp
      have hx' : x ∈ townIdxFrom (strLower tp) 0 data :=
        (List.take_sublist 2 _).subset hx
      obtain ⟨-, k, hk, hget⟩ := mem_townIdxFrom hx'
      simpa [hk] using hget
  · refine ⟨(sortDescBy (fun p => p.2.score)
        (scoredIdxFrom (tokenize q) (strLower tp) 0 data)).take 2, ?_, ?_, ?_, ?_⟩
    · simp only [keywordRetrieve]
      rw [if_neg h, ← map_snd_scoredIdxFrom (tokenize q) (strLower tp) 0 data,
        map_sortDescBy, List.map_take]
    · simp only [List.length_take]
      omega
    · exact List.Pairwise.sublist (List.take_sublist 2 _)
        (pairwise_sort_lexDesc (pairwise_fst_scoredIdxFrom _ _ 0 data))
    · intro p hp
      have hp' : p ∈ scoredIdxFrom (tokenize q) (strLower tp) 0 data :=
        mem_sortDescBy.mp ((List.take_sublist 2 _).subset hp)
      obtain ⟨-, ⟨k, hk, hget⟩, -, -, -⟩ := mem_scoredIdxFrom hp'
      simpa [hk] using hget

/-- C1: `keywordRetrieve` always returns at most 2 scored records, ordered
by descending score, with ties broken by original directory order (the
result projects from an indexed list sorted by descending score and, on
equal scores, ascending directory position). -/
theorem retrieve_top2_desc_stable (data : List ServiceRecord) (q tp : String) :
    (keywordRetrieve data q tp).length ≤ 2 ∧
    (keywordRetrieve data q tp).Pairwise (fun a b => b.score ≤ a.score) ∧
    ∃ l : List (Nat × Scored),
      keywordRetrieve data q tp = l.map Prod.snd ∧
      l.Pairwise lexDesc ∧
      ∀ p ∈ l, data[p.1]? = some p.2.item := by
  obtain ⟨l, hEq, hLen, hPW, hGet⟩ := keywordRetrieve_indexed data q tp
  refine ⟨?_, ?_, l, hEq, hPW, hGet⟩
  · rw [hEq, List.length_map]
    exact hLen
  · rw [hEq]
    exact List.pairwise_map.mpr (hPW.imp lexDesc_score)

/-- C2: if every town-filtered record has zero token overlap with the
question, `keywordRetrieve` returns the first 2 town-filtered records with
score 1; and whenever the town-filtered directory is non-empty the result
has between 1 and 2 entries. -/
theorem retrieve_fallback_nonempty (data : List ServiceRecord) (q tp : String) :
    ((∀ d ∈ data, townOk (strLower tp) d = true → scoreOf (tokenize q) d = 0) →
      keywordRetrieve data q tp =
        ((data.filter (fun d => townOk (strLower tp) d)).take 2).map
          (fun it => ⟨it, 1⟩)) ∧
    (data.filter (fun d => townOk (strLower tp) d) ≠ [] →
      1 ≤ (keywordRetrieve data q tp).length ∧
        (keywordRetrieve data q tp).length ≤ 2) := by
  constructor
  · intro h
    have h0 : scoredOf (tokenize q) (strLower tp) data = [] := scoredOf_eq_nil h
    simp only [keywordRetrieve]
    rw [h0]
    simp
  · intro hne
    have hflt : 0 < (data.filter (fun d => townOk (strLower tp) d)).length :=
      List.length_pos.mpr hne
    by_cases h : (scoredOf (tokenize q) (strLower tp) data).isEmpty
    · simp only [keywordRetrieve]
      rw [if_pos h]
      simp only [List.length_map, List.length_take]
      omega
    · simp only [keywordRetrieve]
      rw [if_neg h]
      have hpos : 0 < (scoredOf (tokenize q) (strLower tp) data).length := by
        cases hsc : scoredOf (tokenize q) (strLower tp) data with
        | nil => rw [hsc] at h; simp at h
        | cons a t => simp
      simp only [List.length_take, length_sortDescBy]
      omega

/-- The record of Scenario 1 of the specification. -/
def lindenRec : ServiceRecord :=
  { town := "Linden", category := "Meals", name := "Senior Meals Co",
    address := "", phone := "555-1111", hours := "", area := [],
    url := "http://x", notes := "" }

/-- C3: whenever some town-filtered record has positive token overlap, every
returned record carries as score the number of question tokens (whitespace
split, lowercased, empties dropped, duplicates counted) occurring as
substrings of the record's lowercase haystack; and on the Scenario-1
singleton directory the retriever returns that record with score ≥ 2. -/
theorem retrieve_score_is_token_count (data : List ServiceRecord) (q tp : String) :
    (∀ s ∈ keywordRetrieve data q tp,
      (∃ d ∈ data, townOk (strLower tp) d = true ∧ 0 < scoreOf (tokenize q) d) →
      s.score = (tokenize q).countP (fun t => strIncl (hayOf s.item) t)) ∧
    ∃ sc, keywordRetrieve [lindenRec] "meals in Linden" "Linden" =
      [⟨lindenRec, sc⟩] ∧ 2 ≤ sc := by
  constructor
  · rintro s hs ⟨d, hd, htk, hsc⟩
    have hne : scoredOf (tokenize q) (strLower tp) data ≠ [] :=
      scoredOf_ne_nil hd htk hsc
    have h : ¬((scoredOf (tokenize q) (strLower tp) data).isEmpty = true) := by
      simpa [List.isEmpty_iff] using hne
    simp only [keywordRetrieve] at hs
    rw [if_neg h] at hs
    have hmem : s ∈ scoredOf (tokenize q) (strLower tp) data :=
      mem_sortDescBy.mp ((List.take_sublist 2 _).subset hs)
    exact (mem_scoredOf hmem).1
  · exact ⟨3, by decide, by omega⟩

theorem retrieve_score_is_token_count_witness :
    (Scored.mk lindenRec 3).score =
      (tokenize "meals in Linden").countP
        (fun t => strIncl (hayOf (Scored.mk lindenRec 3).item) t) :=
  (retrieve_score_is_token_count [lindenRec] "meals in Linden" "Linden").1
    ⟨lindenRec, 3⟩ (by decide) ⟨lindenRec, by decide, by decide, by decide⟩

theorem retrieve_fallback_nonempty_witness :
    keywordRetrieve [lindenRec] "taxes" "Linden" =
      (([lindenRec].filter (fun d => townOk (strLower "Linden") d)).take 2).map
        (fun it => ⟨it, 1⟩) ∧
    1 ≤ (keywordRetrieve [lindenRec] "taxes" "Linden").length ∧
    (keywordRetrieve [lindenRec] "taxes" "Linden").length ≤ 2 :=
  ⟨(retrieve_fallback_nonempty [lindenRec] "taxes" "Linden").1 (by decide),
   (retrieve_fallback_nonempty [lindenRec] "taxes" "Linden").2 (by decide)⟩

/-- C9: every scored record actually returned by `keywordRetrieve` has
score at least 1 — the matching path keeps only positive scores and the
fallback path assigns the fixed score 1. -/
theorem retrieve_score_ge_one (data : List ServiceRecord) (q tp : String)
    (s : Scored) (hs : s ∈ keywordRetrieve data q tp) : 1 ≤ s.score := by
  by_cases h : (scoredOf (tokenize q) (strLower tp) data).isEmpty
  · simp only [keywordRetrieve] at hs
    rw [if_pos h] at hs
    simp only [List.mem_map] at hs
    obtain ⟨x, -, rfl⟩ := hs
    exact Nat.le_refl 1
  · simp only [keywordRetrieve] at hs
    rw [if_neg h] at hs
    have := mem_scoredOf (mem_sortDescBy.mp ((List.take_sublist 2 _).subset hs))
    omega

theorem retrieve_score_ge_one_witness :
    Scored.mk lindenRec 3 ∈ keywordRetrieve [lindenRec] "meals in Linden" "Linden" ∧
    1 ≤ (Scored.mk lindenRec 3).score :=
  ⟨by decide, retrieve_score_ge_one [lindenRec] "meals in Linden" "Linden"
    (Scored.mk lindenRec 3) (by decide)⟩

/-- A string is whitespace-trimmed to the empty string whenever it is empty. -/
theorem strEmpty_trim_of_empty {s : String} (h : strEmpty s = true) :
    strEmpty (strTrim s) = true := by
  cases s with
  | mk d =>
    cases d with
    | nil => rfl
    | cons c t => simp [strEmpty] at h

/-- C4: on a completion error classified as model-not-found while the
configured model differs from the default, `generateWithRetry`
reinitializes to the default model and returns the result of exactly one
retried call; any other error propagates unchanged with no retry. -/
theorem generator_retries_once (call : String → String → Except GenError String)
    (st : GenState) (prompt m : String) (e : GenError)
    (hm : st.chatModel = some m) (he : call m prompt = .error e) :
    (isNotFound (errMsg e) = true → st.currentModelName ≠ defaultModel →
      generateWithRetry call st prompt =
        (call defaultModel prompt, initModel defaultModel st)) ∧
    (isNotFound (errMsg e) = false ∨ st.currentModelName = defaultModel →
      generateWithRetry call st prompt = (.error e, st)) := by
  constructor
  · intro hnf hne
    simp [generateWithRetry, hm, he, hnf, hne, bne_iff_ne]
  · intro hor
    rcases hor with hnf | heq
    · simp [generateWithRetry, hm, he, hnf]
    · simp [generateWithRetry, hm, he, heq]

/-- A demo completion service that knows only the default model. -/
def callNotFound (mo : String) (_prompt : String) : Except GenError String :=
  if mo = defaultModel then .ok "hello" else .error ⟨"404 Not Found", ""⟩

/-- A demo completion service that always fails with a non-404 error. -/
def callBoom2 (_mo : String) (_prompt : String) : Except GenError String :=
  .error ⟨"", "quota exceeded"⟩

theorem generator_retries_once_witness :
    generateWithRetry callNotFound ⟨some "gemini-pro", "gemini-pro"⟩ "hi" =
      (callNotFound defaultModel "hi",
        initModel defaultModel ⟨some "gemini-pro", "gemini-pro"⟩) ∧
    generateWithRetry callBoom2 ⟨some "gemini-pro", "gemini-pro"⟩ "hi" =
      (.error ⟨"", "quota exceeded"⟩, ⟨some "gemini-pro", "gemini-pro"⟩) :=
  ⟨(generator_retries_once callNotFound ⟨some "gemini-pro", "gemini-pro"⟩ "hi"
      "gemini-pro" ⟨"404 Not Found", ""⟩ rfl rfl).1 (by decide) (by decide),
   (generator_retries_once callBoom2 ⟨some "gemini-pro", "gemini-pro"⟩ "hi"
      "gemini-pro" ⟨"", "quota exceeded"⟩ rfl rfl).2 (Or.inl (by decide))⟩

/-- A generator outcome that always fails (seen from the handler). -/
def genBoom (_prompt : String) : Except GenError String := .error ⟨"", "boom"⟩

/-- C5: the ask handler answers 400 "Missing question" for an absent or
blank question (for any directory, so the question is checked before the
directory), 503 for an empty directory, and absorbs every generator
failure into a 200 response carrying the deterministic fallback text. -/
theorem ask_handler_policy (data : List ServiceRecord) (hasModel : Bool)
    (gen : String → Except GenError String) (tp : String) :
    handleAsk data hasModel gen JSVal.undef tp = .badRequest "Missing question" ∧
    (∀ s : String, strEmpty (strTrim s) = true →
      handleAsk data hasModel gen (.str s) tp = .badRequest "Missing question") ∧
    (∀ s : String, strEmpty (strTrim s) = false →
      handleAsk [] hasModel gen (.str s) tp =
        .unavailable "No data loaded. Run the ingestion script.") ∧
    (∀ s : String, strEmpty (strTrim s) = false → data ≠ [] →
      (∀ p, ∃ er, gen p = .error er) →
      handleAsk data hasModel gen (.str s) tp =
        .ok (writeFallbackParagraph (keywordRetrieve data s tp) s tp)
          ((keywordRetrieve data s tp).map Scored.item)) := by
  refine ⟨rfl, ?_, ?_, ?_⟩
  · intro s h
    by_cases hs : strEmpty s
    · simp [handleAsk, jsTruthy, hs]
    · simp [handleAsk, jsTruthy, hs, h]
  · intro s h
    have hs : strEmpty s = false := by
      cases hq : strEmpty s
      · rfl
      · exact absurd (strEmpty_trim_of_empty hq) (by simp [h])
    simp [handleAsk, jsTruthy, hs, h]
  · intro s h hdata hgen
    have hs : strEmpty s = false := by
      cases hq : strEmpty s
      · rfl
      · exact absurd (strEmpty_trim_of_empty hq) (by simp [h])
    have hde : data.isEmpty = false := by
      simpa [List.isEmpty_iff] using hdata
    obtain ⟨er, her⟩ := hgen (buildPrompt s tp (keywordRetrieve data s tp))
    cases hasModel <;> simp [handleAsk, jsTruthy, hs, h, hde, her]

theorem ask_handler_policy_witness :
    handleAsk [lindenRec] true genBoom (.str "meals") "" =
      .ok (writeFallbackParagraph (keywordRetrieve [lindenRec] "meals" "") "meals" "")
        ((keywordRetrieve [lindenRec] "meals" "").map Scored.item) ∧
    handleAsk [lindenRec] true genBoom (.str "   ") "" =
      .badRequest "Missing question" :=
  ⟨(ask_handler_policy [lindenRec] true genBoom "").2.2.2 "meals" (by decide)
      (by decide) (fun _ => ⟨⟨"", "boom"⟩, rfl⟩),
   (ask_handler_policy [lindenRec] true genBoom "").2.1 "   " (by decide)⟩

/-- C10: a truthy non-string question makes the handler throw on `.trim()`
and answer 500 "Server error"; the 400 "Missing question" response occurs
only for falsy question values or strings that are blank after trimming. -/
theorem ask_nonstring_question (data : List ServiceRecord) (hasModel : Bool)
    (gen : String → Except GenError String) (tp : String) :
    (∀ v : JSVal, jsTruthy v = true → (∀ s, v ≠ JSVal.str s) →
      handleAsk data hasModel gen v tp = .serverError "Server error") ∧
    (∀ v : JSVal, handleAsk data hasModel gen v tp = .badRequest "Missing question" →
      jsTruthy v = false ∨ ∃ s, v = JSVal.str s ∧ strEmpty (strTrim s) = true) := by
  constructor
  · intro v hv hns
    cases v with
    | undef => simp [jsTruthy] at hv
    | nullv => simp [jsTruthy] at hv
    | bool b =>
      cases b
      · simp [jsTruthy] at hv
      · simp [handleAsk, jsTruthy]
    | num n =>
      have hn : ¬(n = 0) := by simpa [jsTruthy] using hv
      simp [handleAsk, jsTruthy, hn]
    | str s => exact absurd rfl (hns s)
    | obj => simp [handleAsk, jsTruthy]
  · intro v hre
    cases v with
    | undef => exact Or.inl rfl
    | nullv => exact Or.inl rfl
    | bool b =>
      cases b
      · exact Or.inl rfl
      · simp [handleAsk, jsTruthy] at hre
    | num n =>
      by_cases hn : n = 0
      · exact Or.inl (by simp [jsTruthy, hn])
      · simp [handleAsk, jsTruthy, hn] at hre
    | str s =>
      by_cases hs : strEmpty s
      · exact Or.inr ⟨s, rfl, strEmpty_trim_of_empty hs⟩
      · by_cases ht : strEmpty (strTrim s)
        · exact Or.inr ⟨s, rfl, ht⟩
        · rw [handleAsk] at hre
          simp only [jsTruthy, hs, Bool.not_false, Bool.not_true, ite_false,
            ite_true, Bool.false_eq_true] at hre
          rw [if_neg (by simp [ht])] at hre
          split at hre <;> simp at hre
    | obj => simp [handleAsk, jsTruthy] at hre

theorem ask_nonstring_question_witness :
    handleAsk [lindenRec] false genBoom (.num 5) "" = .serverError "Server error" ∧
    handleAsk [lindenRec] false genBoom .obj "" = .serverError "Server error" :=
  ⟨(ask_nonstring_question [lindenRec] false genBoom "").1 (.num 5) (by decide)
      (fun s => by simp),
   (ask_nonstring_question [lindenRec] false genBoom "").1 .obj (by decide)
      (fun s => by simp)⟩

/-! ### String-literal gluing facts used for the fallback composer -/

theorem sep_phone (X : String) : " " ++ ("Phone: " ++ X) = " Phone: " ++ X := rfl

theorem sep_hours (X : String) : " " ++ ("Hours: " ++ X) = " Hours: " ++ X := rfl

theorem sep_address (X : String) : " " ++ ("Address: " ++ X) = " Address: " ++ X := rfl

theorem sep_moreinfo (X : String) :
    " " ++ ("More info: " ++ X) = " More info: " ++ X := rfl

theorem dot_phone (X : String) : ". " ++ ("Phone: " ++ X) = ". Phone: " ++ X := rfl

theorem dot_hours (X : String) : ". " ++ ("Hours: " ++ X) = ". Hours: " ++ X := rfl

theorem dot_address (X : String) :
    ". " ++ ("Address: " ++ X) = ". Address: " ++ X := rfl

theorem dot_moreinfo (X : String) :
    ". " ++ ("More info: " ++ X) = ". More info: " ++ X := rfl

theorem dot2_phone (X : String) : "." ++ (" Phone: " ++ X) = ". Phone: " ++ X := rfl

theorem dot2_hours (X : String) : "." ++ (" Hours: " ++ X) = ". Hours: " ++ X := rfl

theorem dot2_address (X : String) :
    "." ++ (" Address: " ++ X) = ". Address: " ++ X := rfl

theorem dot2_moreinfo (X : String) :
    "." ++ (" More info: " ++ X) = ". More info: " ++ X := rfl

theorem dot_space (X : String) : "." ++ (" " ++ X) = ". " ++ X := rfl

/-- C6: the deterministic fallback paragraph. On an empty scored list it is
the apology sentence naming the town filter when one is given; on a
non-empty list it is built from the top-ranked record only, in the fixed
order name/town sentence, notes, hours, address, phone (defaulting to
"N/A"), url, joined by single spaces. -/
theorem composeFallback_shape (q tp : String) (s : Scored) (rest : List Scored) :
    (strEmpty tp = false →
      writeFallbackParagraph [] q tp =
        "I couldn’t find a match in " ++ tp ++
          ". Please try a different town or category, or use the links in the sources below.") ∧
    writeFallbackParagraph (s :: rest) q tp =
      s.item.name ++ " serves " ++ s.item.town ++ "." ++
      (if strEmpty s.item.notes then "" else " " ++ s.item.notes) ++
      (if strEmpty s.item.hours then "" else " Hours: " ++ s.item.hours ++ ".") ++
      (if strEmpty s.item.address then "" else " Address: " ++ s.item.address ++ ".") ++
      " Phone: " ++ (if strEmpty s.item.phone then "N/A" else s.item.phone) ++ "." ++
      (if strEmpty s.item.url then "" else " More info: " ++ s.item.url) := by
  constructor
  · intro h
    simp [writeFallbackParagraph, h, ← String.append_assoc]
  · by_cases hN : strEmpty s.item.notes <;>
    by_cases hH : strEmpty s.item.hours <;>
    by_cases hA : strEmpty s.item.address <;>
    by_cases hU : strEmpty s.item.url <;>
    simp [writeFallbackParagraph, joinSep, hN, hH, hA, hU, String.append_assoc,
      sep_phone, sep_hours, sep_address, sep_moreinfo,
      dot_phone, dot_hours, dot_address, dot_moreinfo,
      dot2_phone, dot2_hours, dot2_address, dot2_moreinfo, dot_space]

theorem composeFallback_shape_witness :
    writeFallbackParagraph [] "help" "Linden" =
      "I couldn’t find a match in " ++ "Linden" ++
        ". Please try a different town or category, or use the links in the sources below." ∧
    writeFallbackParagraph [⟨lindenRec, 3⟩] "help" "Linden" =
      (Scored.mk lindenRec 3).item.name ++ " serves " ++
        (Scored.mk lindenRec 3).item.town ++ "." ++
      (if strEmpty (Scored.mk lindenRec 3).item.notes then ""
        else " " ++ (Scored.mk lindenRec 3).item.notes) ++
      (if strEmpty (Scored.mk lindenRec 3).item.hours then ""
        else " Hours: " ++ (Scored.mk lindenRec 3).item.hours ++ ".") ++
      (if strEmpty (Scored.mk lindenRec 3).item.address then ""
        else " Address: " ++ (Scored.mk lindenRec 3).item.address ++ ".") ++
      " Phone: " ++ (if strEmpty (Scored.mk lindenRec 3).item.phone then "N/A"
        else (Scored.mk lindenRec 3).item.phone) ++ "." ++
      (if strEmpty (Scored.mk lindenRec 3).item.url then ""
        else " More info: " ++ (Scored.mk lindenRec 3).item.url) :=
  ⟨(composeFallback_shape "help" "Linden" ⟨lindenRec, 3⟩ []).1 (by decide),
   (composeFallback_shape "help" "Linden" ⟨lindenRec, 3⟩ []).2⟩

/-! ### The prompt layout -/

/-- Trimming a string whose first segment is all-whitespace, whose second
segment starts with a non-whitespace character, and whose last segment
right-trims to `B`, keeps everything between untouched. -/
theorem strTrim_shape (W A S1 Q S2 TD S3 DD T B : String)
    (hW : List.dropWhile Char.isWhitespace W.data = [])
    (hA : List.dropWhile Char.isWhitespace A.data = A.data)
    (hAne : A.data.isEmpty = false)
    (hT : List.dropWhile Char.isWhitespace T.data.reverse = B.data.reverse)
    (hBne : B.data.reverse.isEmpty = false) :
    strTrim (W ++ A ++ S1 ++ Q ++ S2 ++ TD ++ S3 ++ DD ++ T) =
      A ++ S1 ++ Q ++ S2 ++ TD ++ S3 ++ DD ++ B := by
  apply String.ext
  show trimChars _ = _
  simp only [trimChars, String.data_append, List.append_assoc]
  rw [List.dropWhile_append, hW]
  simp only [List.isEmpty_nil, if_true]
  rw [List.dropWhile_append, hA, if_neg (by simp [hAne])]
  simp only [List.reverse_append, List.append_assoc]
  rw [List.dropWhile_append, hT, if_neg (by simp [hBne])]
  simp [List.reverse_append, List.reverse_reverse, List.append_assoc]

set_option maxRecDepth 8000 in
set_option maxHeartbeats 2000000 in
/-- The final trim of the prompt template removes exactly the leading and
trailing newline, leaving the directory section in place. -/
theorem strTrim_body (q tp dir : String) :
    strTrim ("\n" ++ guardrails ++ "\n\nUser question: \"\"\"" ++ q ++ "\"\"\"\n" ++
        (if strEmpty tp then "" else "Preferred town: " ++ tp) ++
        "\n\nLocal Directory:\n" ++ dir ++
        "\nWrite a short **paragraph** (not a list). Mention up to 2 relevant services. Avoid repeating the exact same phrasing each time.\n") =
      guardrails ++ "\n\nUser question: \"\"\"" ++ q ++ "\"\"\"\n" ++
        (if strEmpty tp then "" else "Preferred town: " ++ tp) ++
        "\n\nLocal Directory:\n" ++ dir ++
        "\nWrite a short **paragraph** (not a list). Mention up to 2 relevant services. Avoid repeating the exact same phrasing each time." :=
  strTrim_shape "\n" guardrails "\n\nUser question: \"\"\"" q "\"\"\"\n"
    (if strEmpty tp then "" else "Preferred town: " ++ tp)
    "\n\nLocal Directory:\n" dir
    "\nWrite a short **paragraph** (not a list). Mention up to 2 relevant services. Avoid repeating the exact same phrasing each time.\n"
    "\nWrite a short **paragraph** (not a list). Mention up to 2 relevant services. Avoid repeating the exact same phrasing each time."
    (by decide) (by decide) (by decide) (by decide) (by decide)

/-- A non-empty scored list renders a non-empty directory section. -/
theorem contextLines_ne_empty (scored : List Scored) (h : scored ≠ []) :
    strEmpty (joinSep "\n" (scored.map contextLine)) = false := by
  cases scored with
  | nil => exact absurd rfl h
  | cons s rest =>
    cases rest with
    | nil => simp [joinSep, contextLine, strEmpty]
    | cons s2 r2 => simp [joinSep, contextLine, strEmpty]

/-- A directory record lacking a name. -/
def noNameRec : ServiceRecord :=
  { town := "Linden", category := "Meals", name := "", address := "",
    phone := "", hours := "", area := [], url := "http://x", notes := "" }

set_option maxRecDepth 10000 in
set_option maxHeartbeats 4000000 in
/-- C7 counterexample: on a record with an empty name the rendered directory
line reads "(name not provided)", not "N/A" as the claim's name default
states: the prompt contains "(name not provided)" and no "N/A" in the name
slot (between the category bracket and the em dash). -/
theorem prompt_name_default_counterexample :
    contextLine ⟨noNameRec, 1⟩ =
      "- [Meals] (name not provided) — Phone: N/A; Hours: N/A; Area: ; Link: http://x; " ∧
    strIncl (buildPrompt "meals" "" [⟨noNameRec, 1⟩]) "(name not provided)" = true ∧
    strIncl (buildPrompt "meals" "" [⟨noNameRec, 1⟩]) "N/A —" = false := by
  refine ⟨by decide, by decide, by decide⟩

/-- C7 (amended): `buildPrompt` renders one line per scored record — the
line carrying category, name (default "(name not provided)"), phone
(default "N/A"), address (omitted when empty), hours (default "N/A"), the
comma-joined area list, link and notes (omitted when empty) — and renders
the literal "(no matches)" marker when the scored list is empty. -/
theorem prompt_renders_lines (q tp : String) (scored : List Scored) :
    (scored ≠ [] → ∃ pre post : String,
      buildPrompt q tp scored =
        pre ++ joinSep "\n" (scored.map contextLine) ++ post) ∧
    (∃ pre post : String, buildPrompt q tp [] = pre ++ "(no matches)" ++ post) := by
  constructor
  · intro hne
    refine ⟨guardrails ++ "\n\nUser question: \"\"\"" ++ q ++ "\"\"\"\n" ++
      (if strEmpty tp then "" else "Preferred town: " ++ tp) ++
      "\n\nLocal Directory:\n",
      "\nWrite a short **paragraph** (not a list). Mention up to 2 relevant services. Avoid repeating the exact same phrasing each time.", ?_⟩
    have hctx := contextLines_ne_empty scored hne
    simp only [buildPrompt, hctx, Bool.false_eq_true, if_false]
    exact strTrim_body q tp (joinSep "\n" (scored.map contextLine))
  · refine ⟨guardrails ++ "\n\nUser question: \"\"\"" ++ q ++ "\"\"\"\n" ++
      (if strEmpty tp then "" else "Preferred town: " ++ tp) ++
      "\n\nLocal Directory:\n",
      "\nWrite a short **paragraph** (not a list). Mention up to 2 relevant services. Avoid repeating the exact same phrasing each time.", ?_⟩
    simp only [buildPrompt, List.map_nil, joinSep]
    rw [show (if strEmpty "" = true then "(no matches)" else "") = "(no matches)" from rfl]
    exact strTrim_body q tp "(no matches)"

theorem prompt_renders_lines_witness :
    ∃ pre post : String,
      buildPrompt "meals" "Linden" [⟨lindenRec, 3⟩] =
        pre ++ joinSep "\n" ([Scored.mk lindenRec 3].map contextLine) ++ post :=
  (prompt_renders_lines "meals" "Linden" [⟨lindenRec, 3⟩]).1 (by simp)

/-! ### The ingestion area pipeline -/

theorem splitP_ne_nil (p : Char → Bool) (l : List Char) : splitP p l ≠ [] := by
  induction l with
  | nil => simp [splitP]
  | cons c t ih =>
    by_cases hc : p c
    · simp [splitP, hc]
    · cases hsp : splitP p t with
      | nil => exact absurd hsp ih
      | cons g gs => simp [splitP, hc, hsp]

theorem splitP_cons_sep (p : Char → Bool) (c : Char) (t : List Char)
    (hc : p c = true) : splitP p (c :: t) = [] :: splitP p t := by
  simp [splitP, hc]

theorem splitP_cons_head (p : Char → Bool) (c : Char) (t g : List Char)
    (gs : List (List Char)) (hc : p c = false) (h : splitP p t = g :: gs) :
    splitP p (c :: t) = (c :: g) :: gs := by
  simp [splitP, hc, h]

theorem ws_not_comma {c : Char} (h : Char.isWhitespace c = true) :
    (c == ',') = false := by
  simp only [Char.isWhitespace, Bool.or_eq_true, decide_eq_true_eq] at h
  rcases h with ((rfl | rfl) | rfl) | rfl <;> decide

theorem trim_cons_ws {c : Char} (x : List Char)
    (hc : Char.isWhitespace c = true) : trimChars (c :: x) = trimChars x := by
  simp [trimChars, List.dropWhile_cons, hc]

/-- The character-level area pipeline: split at commas, trim every piece,
drop the empty pieces. -/
def splitTrimF (l : List Char) : List (List Char) :=
  ((splitP (fun c => c == ',') l).map trimChars).filter (fun t => !t.isEmpty)

theorem splitTrimF_dropWhile (l : List Char) :
    splitTrimF (l.dropWhile Char.isWhitespace) = splitTrimF l := by
  induction l with
  | nil => rfl
  | cons c t ih =>
    by_cases hc : Char.isWhitespace c
    · rw [List.dropWhile_cons, if_pos hc, ih]
      cases hsp : splitP (fun x => x == ',') t with
      | nil => exact absurd hsp (splitP_ne_nil _ _)
      | cons g gs =>
        simp only [splitTrimF,
          splitP_cons_head (fun x => x == ',') c t g gs (ws_not_comma hc) hsp,
          hsp, List.map_cons, trim_cons_ws g hc]
    · rw [List.dropWhile_cons, if_neg hc]

/-- Append `c` to the last group (the effect on `splitP` of appending a
non-separator character). -/
def modLast (c : Char) : List (List Char) → List (List Char)
  | [] => [[c]]
  | [g] => [g ++ [c]]
  | g :: g2 :: gs => g :: modLast c (g2 :: gs)

theorem modLast_cons_cons (c : Char) (g g2 : List Char) (gs : List (List Char)) :
    modLast c (g :: g2 :: gs) = g :: modLast c (g2 :: gs) := rfl

theorem splitP_append_last (p : Char → Bool) (c : Char) (hc : p c = false) :
    ∀ x : List Char, splitP p (x ++ [c]) = modLast c (splitP p x)
  | [] => by simp [splitP, hc, modLast]
  | a :: t => by
    by_cases ha : p a
    · rw [List.cons_append, splitP_cons_sep p a (t ++ [c]) ha,
        splitP_cons_sep p a t ha, splitP_append_last p c hc t]
      cases hsp : splitP p t with
      | nil => exact absurd hsp (splitP_ne_nil _ _)
      | cons g gs => cases gs <;> simp [modLast]
    · cases hsp : splitP p t with
      | nil => exact absurd hsp (splitP_ne_nil _ _)
      | cons g gs =>
        have ht := splitP_append_last p c hc t
        rw [hsp] at ht
        have hpa : p a = false := by simpa using ha
        rw [List.cons_append]
        cases gs with
        | nil =>
          rw [splitP_cons_head p a (t ++ [c]) (g ++ [c]) [] hpa
              (by simpa [modLast] using ht),
            splitP_cons_head p a t g [] hpa hsp]
          simp [modLast]
        | cons g2 gs2 =>
          rw [modLast_cons_cons] at ht
          rw [splitP_cons_head p a (t ++ [c]) g (modLast c (g2 :: gs2)) hpa ht,
            splitP_cons_head p a t g (g2 :: gs2) hpa hsp, modLast_cons_cons]

theorem trim_append_ws {c : Char} (g : List Char)
    (hc : Char.isWhitespace c = true) : trimChars (g ++ [c]) = trimChars g := by
  by_cases hg : (List.dropWhile Char.isWhitespace g).isEmpty
  · have hg' : List.dropWhile Char.isWhitespace g = [] := by
      simpa [List.isEmpty_iff] using hg
    simp [trimChars, List.dropWhile_append, hg', hc]
  · have hg' : (List.dropWhile Char.isWhitespace g).isEmpty = false := by
      simpa using hg
    simp [trimChars, List.dropWhile_append, hg', hc, List.reverse_append]

theorem map_trim_modLast {c : Char} (hc : Char.isWhitespace c = true) :
    ∀ gs : List (List Char), gs ≠ [] →
      (modLast c gs).map trimChars = gs.map trimChars
  | [], h => absurd rfl h
  | [g], _ => by simp [modLast, trim_append_ws g hc]
  | g :: g2 :: gs2, _ => by
    rw [modLast_cons_cons, List.map_cons, List.map_cons,
      map_trim_modLast hc (g2 :: gs2) (by simp)]

theorem splitTrimF_append_ws {c : Char} (x : List Char)
    (hc : Char.isWhitespace c = true) : splitTrimF (x ++ [c]) = splitTrimF x := by
  rw [splitTrimF, splitTrimF,
    splitP_append_last (fun x => x == ',') c (ws_not_comma hc) x,
    map_trim_modLast hc _ (splitP_ne_nil _ _)]

theorem splitTrimF_dropWhile_rev (n : List Char) :
    splitTrimF (n.dropWhile Char.isWhitespace).reverse = splitTrimF n.reverse := by
  induction n with
  | cons c t ih =>
    by_cases hc : Char.isWhitespace c
    · rw [List.dropWhile_cons, if_pos hc, ih, List.reverse_cons,
        splitTrimF_append_ws t.reverse hc]
    · rw [List.dropWhile_cons, if_neg hc]
  | nil => rfl

/-- Trimming the whole string first does not change the outcome of the
split-trim-filter pipeline. -/
theorem splitTrimF_trim (l : List Char) :
    splitTrimF (trimChars l) = splitTrimF l := by
  rw [trimChars, splitTrimF_dropWhile_rev, List.reverse_reverse, splitTrimF_dropWhile]

theorem area_pipeline_key (l : List Char) :
    ((splitCommaStr ⟨l⟩).map strTrim).filter (fun t => !strEmpty t) =
      (splitTrimF l).map String.mk := by
  simp only [splitCommaStr, splitTrimF, List.map_map, List.filter_map, strEmpty]
  rfl

/-- The area of a sanitized row equals the comma-split/trim/filter pipeline
applied to the raw area cell. -/
theorem area_spec (s : String) :
    ((splitCommaStr (strTrim s)).map strTrim).filter (fun t => !strEmpty t) =
      ((splitCommaStr s).map strTrim).filter (fun t => !strEmpty t) := by
  cases s with
  | mk d =>
    have h1 : strTrim ⟨d⟩ = ⟨trimChars d⟩ := rfl
    rw [h1, area_pipeline_key (trimChars d), area_pipeline_key d, splitTrimF_trim]

/-- C8: every record surviving the ingestion filter has non-empty `town`,
`category` and `url`, and its `area` field is the input area string
comma-split, each entry trimmed, empty entries removed. -/
theorem ingest_invariants (rows : List CsvRow) (x : ServiceRecord)
    (hx : x ∈ ingestItems rows) :
    strEmpty x.town = false ∧ strEmpty x.category = false ∧
    strEmpty x.url = false ∧
    ∃ r ∈ rows, x = sanitizeRow r ∧
      x.area = ((splitCommaStr r.area).map strTrim).filter (fun t => !strEmpty t) := by
  rw [ingestItems] at hx
  obtain ⟨hmem, hpred⟩ := List.mem_filter.mp hx
  obtain ⟨r, hr, rfl⟩ := List.mem_map.mp hmem
  simp only [Bool.and_eq_true, Bool.not_eq_true'] at hpred
  obtain ⟨⟨h1, h2⟩, h3⟩ := hpred
  refine ⟨h1, h2, h3, r, hr, rfl, ?_⟩
  have harea : (sanitizeRow r).area =
      ((splitCommaStr (strTrim r.area)).map strTrim).filter (fun t => !strEmpty t) := rfl
  rw [harea, area_spec]

/-- A demo CSV row with whitespace and empty entries in the area cell. -/
def demoRow : CsvRow :=
  { town := " Linden ", category := "Meals", name := "Senior Meals Co",
    address := "", phone := "555-1111", hours := "", area := " Linden, Rahway ,, ",
    url := "http://x", notes := "" }

theorem ingest_invariants_witness :
    strEmpty (sanitizeRow demoRow).town = false ∧
    strEmpty (sanitizeRow demoRow).category = false ∧
    strEmpty (sanitizeRow demoRow).url = false ∧
    ∃ r ∈ [demoRow], sanitizeRow demoRow = sanitizeRow r ∧
      (sanitizeRow demoRow).area =
        ((splitCommaStr r.area).map strTrim).filter (fun t => !strEmpty t) :=
  ingest_invariants [demoRow] (sanitizeRow demoRow) (by decide)

end Helper
